import Mathlib

/-!
Shallow embedding of the user repository and credential verification module
of a12n-server (src/unnamed/part_000).

The relational store is modelled as explicit list-based tables; SQL queries
become filters/maps over those lists, preserving store (list) order.  The
external libraries bcrypt and otplib are modelled as abstract function
parameters: `bhash : String → Nat → String` for `bcrypt.hash(pw, cost)`,
`bcompare : String → String → Bool` for `bcrypt.compare`, and
`check : String → String → Bool` for `otplib.authenticator.check`
(total boolean functions, per their documented APIs).
-/

namespace A12n

/-- A row of the `users` table: columns `id`, `identity`, `nickname`,
`created` (unix seconds), `type`, `active`. -/
structure UserRow where
  id : Nat
  identity : String
  nickname : String
  created : Nat
  type : Nat
  active : Bool
deriving DecidableEq, Repr

/-- Modelled from the spec: the `User` shape of the `./types` module (which
is not under src/): fields `id`, `identity`, `nickname`, `created`, `type`.
`created` is a millisecond timestamp (a JS `Date`); it is `Option` because a
JS object can lack the field at runtime (`undefined`), which the insert
branch of `save` actually produces via its spread of a `NewUser`. -/
structure User where
  id : Nat
  identity : String
  nickname : String
  created : Option Nat
  type : Nat
deriving DecidableEq, Repr

/-- Modelled from the spec: `NewUser` carries `identity`, `nickname`,
`type`, and no `id` and no `created`. -/
structure NewUser where
  identity : String
  nickname : String
  type : Nat
deriving DecidableEq, Repr

/-- A row of the `user_passwords` table; `password` holds the hash bytes
(read back with `toString('utf-8')`, so modelled as a string). -/
structure PasswordRow where
  userId : Nat
  password : String
deriving DecidableEq, Repr

/-- A row of the `user_totp` table. -/
structure TotpRow where
  userId : Nat
  secret : String
deriving DecidableEq, Repr

/-- The shared relational store: the three tables plus the auto-increment
counter that supplies `insertId` for inserts into `users`. -/
structure Db where
  users : List UserRow
  user_passwords : List PasswordRow
  user_totp : List TotpRow
  nextId : Nat
deriving DecidableEq, Repr

/-- The column list of every SELECT on `users` (the source's `fieldNames`). -/
def fieldNames : List String := ["id", "identity", "nickname", "created", "type"]

/-- The source's `UserRecord` type: the projection a
`SELECT id, identity, nickname, created, type` row has. -/
structure UserRecord where
  id : Nat
  identity : String
  nickname : String
  created : Nat
  type : Nat
deriving DecidableEq, Repr

/-- The projection of a full row to the selected `fieldNames` columns
(`active` is dropped by the SELECT). -/
def selectFields (r : UserRow) : UserRecord :=
  { id := r.id, identity := r.identity, nickname := r.nickname,
    created := r.created, type := r.type }

/-- `recordToModel`: converts a selected record to the `User` model;
`created` becomes `new Date(user.created * 1000)`, i.e. milliseconds. -/
def recordToModel (u : UserRecord) : User :=
  { id := u.id, identity := u.identity, nickname := u.nickname,
    created := some (u.created * 1000), type := u.type }

/-- The error type of `@curveball/http-errors` as used here: only
`NotFound` is thrown by this module. -/
inductive HttpError where
  | NotFound (msg : String)
deriving DecidableEq, Repr

/-- Result rows of `SELECT ... FROM users WHERE active = 1`. -/
def activeRows (db : Db) : List UserRow :=
  db.users.filter (fun r => r.active)

/-- Result rows of `SELECT ... FROM users WHERE active = 1 AND id = ?`. -/
def activeById (db : Db) (id : Nat) : List UserRow :=
  db.users.filter (fun r => r.active && r.id == id)

/-- Result rows of
`SELECT ... FROM users WHERE active = 1 AND identity = ?`. -/
def activeByIdentity (db : Db) (idt : String) : List UserRow :=
  db.users.filter (fun r => r.active && r.identity == idt)

/-- `findAll`: maps `recordToModel` over every active row, in store order. -/
def findAll (db : Db) : List User :=
  (activeRows db).map (fun r => recordToModel (selectFields r))

/-- `findById`: the source throws `NotFound` when `result[0].length !== 1`
and otherwise returns `recordToModel(result[0][0])`; a result list has
length 1 exactly when it is `[r]`, which the match expresses. -/
def findById (db : Db) (id : Nat) : Except HttpError User :=
  match activeById db id with
  | [r] => .ok (recordToModel (selectFields r))
  | _ => .error (.NotFound ("User with id: " ++ toString id ++ " not found"))

/-- `findByIdentity`: same contract as `findById`, keyed by `identity`. -/
def findByIdentity (db : Db) (idt : String) : Except HttpError User :=
  match activeByIdentity db idt with
  | [r] => .ok (recordToModel (selectFields r))
  | _ => .error (.NotFound ("User with identity: " ++ idt ++ " not found"))

/-- `save(user)`, dispatching on `isExistingUser` (presence of `id`, here an
explicit sum: `.inl` an existing `User`, `.inr` a `NewUser`).
`now` is the server's `UNIX_TIMESTAMP()`; `activeDefault` is the store's
column default for `active`, which the INSERT does not mention (the schema
is outside src/).
Insert branch: `INSERT INTO users SET identity, nickname, type,
created = UNIX_TIMESTAMP()`; the returned value is
`{ id: result[0].insertId, ...user }` — and the spread of a `NewUser`
carries no `created` field, so the returned object's `created` is absent.
Update branch: `UPDATE users SET identity = ?, nickname = ? WHERE id = ?`,
returning the input unchanged. -/
def save (db : Db) (now : Nat) (activeDefault : Bool) :
    User ⊕ NewUser → Db × User
  | .inr nu =>
      let newRow : UserRow :=
        { id := db.nextId, identity := nu.identity, nickname := nu.nickname,
          created := now, type := nu.type, active := activeDefault }
      ({ db with users := db.users ++ [newRow], nextId := db.nextId + 1 },
       { id := db.nextId, identity := nu.identity, nickname := nu.nickname,
         created := none, type := nu.type })
  | .inl u =>
      ({ db with users := db.users.map (fun r =>
          if r.id = u.id then
            { r with identity := u.identity, nickname := u.nickname }
          else r) },
       u)

/-- `createPassword`: `INSERT INTO user_passwords SET user_id = ?,
password = ?` with `password = bcrypt.hash(password, 12)` — the cost
parameter 12 is fixed in the source. -/
def createPassword (bhash : String → Nat → String) (db : Db) (user : User)
    (password : String) : Db :=
  { db with user_passwords :=
      db.user_passwords ++ [{ userId := user.id, password := bhash password 12 }] }

/-- Hashes returned by `SELECT password FROM user_passwords WHERE
user_id = ?`, mapped to strings, in store order. -/
def storedHashes (db : Db) (uid : Nat) : List String :=
  (db.user_passwords.filter (fun r => r.userId == uid)).map (fun r => r.password)

/-- `validatePassword`: loops over the stored hashes in store order and
returns `true` at the first `bcrypt.compare` match, `false` after the loop;
this early-exit loop is exactly `List.any`. -/
def validatePassword (bcompare : String → String → Bool) (db : Db)
    (user : User) (password : String) : Bool :=
  (storedHashes db user.id).any (fun h => bcompare password h)

/-- Rows of `SELECT secret FROM user_totp WHERE user_id = ?`, in store
order. -/
def totpRows (db : Db) (uid : Nat) : List TotpRow :=
  db.user_totp.filter (fun r => r.userId == uid)

/-- `validateTotp`: returns `false` when the result set is empty ("not set
up"), otherwise checks the token against `result[0][0].secret`, the first
row's secret. -/
def validateTotp (check : String → String → Bool) (db : Db) (user : User)
    (token : String) : Bool :=
  match totpRows db user.id with
  | [] => false
  | r :: _ => check token r.secret

/-! Concrete fixtures used by the witness theorems. -/

/-- Sample active row. -/
def rowAlice : UserRow :=
  { id := 1, identity := "alice@example.com", nickname := "Alice",
    created := 1700000000, type := 1, active := true }

/-- Sample deactivated row. -/
def rowBob : UserRow :=
  { id := 2, identity := "bob@example.com", nickname := "Bob",
    created := 1700000100, type := 1, active := false }

/-- The `User` model of `rowAlice`. -/
def userAlice : User := recordToModel (selectFields rowAlice)

/-- The empty store. -/
def dbEmpty : Db :=
  { users := [], user_passwords := [], user_totp := [], nextId := 1 }

/-- A sample store with one active and one inactive user. -/
def dbW : Db :=
  { users := [rowAlice, rowBob],
    user_passwords := [],
    user_totp := [],
    nextId := 3 }

/-- A concrete stand-in for `bcrypt.hash` used by witnesses: tags the
plaintext with the cost. -/
def bhashW (p : String) (cost : Nat) : String := toString cost ++ "#" ++ p

/-- A concrete stand-in for `bcrypt.compare` matching `bhashW` at cost 12. -/
def bcompareW (p h : String) : Bool := h == bhashW p 12

/-- A concrete stand-in for `otplib.authenticator.check` used by witnesses:
the token matches iff it equals the secret. -/
def checkW (token secret : String) : Bool := token == secret

/-- A sample store with password rows for two users. -/
def dbP : Db :=
  { users := [rowAlice],
    user_passwords :=
      [{ userId := 1, password := bhashW "Secr3tPass!" 12 },
       { userId := 2, password := bhashW "other" 12 }],
    user_totp := [],
    nextId := 3 }

/-! The claims. -/

/-- C1: `findById` returns the unique active user when exactly one active
row matches and fails with `NotFound` when zero or more than one rows
match, with the same message either way (no distinct error kind);
`findByIdentity` has the same contract keyed by `identity`; and the
`NotFound` failure is an `Except.error`, never equal to a successful
resolution, hence distinguishable from a `false` verification verdict. -/
theorem findById_findByIdentity_contract (db : Db) (id : Nat) (idt : String) :
    (∀ r, activeById db id = [r] →
        findById db id = .ok (recordToModel (selectFields r)))
  ∧ ((activeById db id).length ≠ 1 →
        findById db id =
          .error (.NotFound ("User with id: " ++ toString id ++ " not found")))
  ∧ (∀ r, activeByIdentity db idt = [r] →
        findByIdentity db idt = .ok (recordToModel (selectFields r)))
  ∧ ((activeByIdentity db idt).length ≠ 1 →
        findByIdentity db idt =
          .error (.NotFound ("User with identity: " ++ idt ++ " not found")))
  ∧ (∀ msg (u : User),
        (Except.error (HttpError.NotFound msg) : Except HttpError User)
          ≠ .ok u) := by
  refine ⟨?_, ?_, ?_, ?_, ?_⟩
  · intro r h; simp [findById, h]
  · intro h
    cases hm : activeById db id with
    | nil => simp [findById, hm]
    | cons r rest =>
      cases rest with
      | nil => exact absurd (by simp [hm]) h
      | cons r2 rest2 => simp [findById, hm]
  · intro r h; simp [findByIdentity, h]
  · intro h
    cases hm : activeByIdentity db idt with
    | nil => simp [findByIdentity, hm]
    | cons r rest =>
      cases rest with
      | nil => exact absurd (by simp [hm]) h
      | cons r2 rest2 => simp [findByIdentity, hm]
  · intro msg u h; cases h

/-- C1 witness: on the sample store, id 1 resolves to Alice, and Bob's
identity (his row is inactive, so zero rows match) fails with `NotFound`. -/
theorem findById_findByIdentity_contract_witness :
    findById dbW 1
      = .ok { id := 1, identity := "alice@example.com", nickname := "Alice",
              created := some 1700000000000, type := 1 }
  ∧ findByIdentity dbW "bob@example.com"
      = .error (.NotFound "User with identity: bob@example.com not found") := by
  constructor
  · exact (findById_findByIdentity_contract dbW 1 "x").1 rowAlice (by decide)
  · exact (findById_findByIdentity_contract dbW 1
      "bob@example.com").2.2.2.1 (by decide)

/-- C2 (failing input, evaluated): inserting
`{identity := "alice@example.com", nickname := "Alice", type := 1}` at
server time 1700000000 stores a row whose `created` is the call time, but
the value returned to the caller is the fresh id spread together with only
the input's fields and so carries no `created` at all, contradicting the
declared `Promise of User` and the claim's "including a created timestamp
at or after the call time". -/
theorem save_new_returns_no_created :
    (save dbEmpty 1700000000 true
        (.inr { identity := "alice@example.com", nickname := "Alice",
                type := 1 })).2
      = { id := 1, identity := "alice@example.com", nickname := "Alice",
          created := none, type := 1 }
  ∧ (save dbEmpty 1700000000 true
        (.inr { identity := "alice@example.com", nickname := "Alice",
                type := 1 })).1.users
      = [{ id := 1, identity := "alice@example.com", nickname := "Alice",
           created := 1700000000, type := 1, active := true }] :=
  ⟨rfl, rfl⟩

/-- An early-exit boolean scan over a list is exactly: the first match
exists. -/
theorem any_eq_find_isSome (l : List String) (p : String → Bool) :
    l.any p = (l.find? p).isSome := by
  induction l with
  | nil => rfl
  | cons h t ih =>
      cases hp : p h with
      | true => simp [List.any_cons, List.find?, hp]
      | false => simp [List.any_cons, List.find?, hp, ih]

/-- C3: `validatePassword` tests the candidate against the stored hashes of
`user.id` in store order, short-circuiting on the first match: the result
equals the existence of the first matching hash (`find?` on the
store-ordered list), is `false` on an empty row set, and is `true` iff some
stored hash matches. -/
theorem validatePassword_first_match (bcompare : String → String → Bool)
    (db : Db) (u : User) (p : String) :
    validatePassword bcompare db u p
        = ((storedHashes db u.id).find? (fun h => bcompare p h)).isSome
  ∧ (storedHashes db u.id = [] → validatePassword bcompare db u p = false)
  ∧ (validatePassword bcompare db u p = true ↔
        ∃ h ∈ storedHashes db u.id, bcompare p h = true) := by
  refine ⟨any_eq_find_isSome _ _, ?_, ?_⟩
  · intro h; simp [validatePassword, h]
  · simp [validatePassword, List.any_eq_true]

/-- C3 witness: on the sample password store, Alice's stored password
verifies and a wrong candidate does not. -/
theorem validatePassword_first_match_witness :
    validatePassword bcompareW dbP userAlice "Secr3tPass!" = true
  ∧ validatePassword bcompareW dbP userAlice "WrongPass" = false := by
  constructor
  · exact ((validatePassword_first_match bcompareW dbP userAlice
      "Secr3tPass!").1).trans (by decide)
  · exact ((validatePassword_first_match bcompareW dbP userAlice
      "WrongPass").1).trans (by decide)

/-- C4: `createPassword` only ever appends a fresh credential row, touching
no existing one, so after adding credentials for `p1` and then `p2` (with
bcrypt correctly matching each plaintext against its own cost-12 hash),
both plaintexts validate, independently of each other. -/
theorem createPassword_accumulates (bcompare : String → String → Bool)
    (bhash : String → Nat → String) (db : Db) (u : User) (p1 p2 : String)
    (h1 : bcompare p1 (bhash p1 12) = true)
    (h2 : bcompare p2 (bhash p2 12) = true) :
    (createPassword bhash db u p1).user_passwords
        = db.user_passwords ++ [{ userId := u.id, password := bhash p1 12 }]
  ∧ validatePassword bcompare
      (createPassword bhash (createPassword bhash db u p1) u p2) u p1 = true
  ∧ validatePassword bcompare
      (createPassword bhash (createPassword bhash db u p1) u p2) u p2
        = true := by
  refine ⟨rfl, ?_, ?_⟩
  · simp [validatePassword, storedHashes, createPassword, List.filter_append,
      List.any_append, h1]
  · simp [validatePassword, storedHashes, createPassword, List.filter_append,
      List.any_append, h2]

/-- C4 witness: concrete accumulation of "P1" then "P2" on the empty store;
both validate. -/
theorem createPassword_accumulates_witness :
    validatePassword bcompareW
      (createPassword bhashW (createPassword bhashW dbEmpty userAlice "P1")
        userAlice "P2") userAlice "P1" = true
  ∧ validatePassword bcompareW
      (createPassword bhashW (createPassword bhashW dbEmpty userAlice "P1")
        userAlice "P2") userAlice "P2" = true := by
  have h := createPassword_accumulates bcompareW bhashW dbEmpty userAlice
    "P1" "P2" (by decide) (by decide)
  exact ⟨h.2.1, h.2.2⟩

/-- C5: `save` on an existing user returns the input unchanged (no
re-fetch), leaves the credential tables and the id counter untouched,
rewrites the users table by updating `identity` and `nickname` of rows
whose id matches, leaves every row's `created`, `type` and `active` fields
as they were, and leaves rows with a different id entirely unchanged. -/
theorem save_update_frame (db : Db) (now : Nat) (activeDefault : Bool)
    (u : User) :
    (save db now activeDefault (.inl u)).2 = u
  ∧ (save db now activeDefault (.inl u)).1.user_passwords = db.user_passwords
  ∧ (save db now activeDefault (.inl u)).1.user_totp = db.user_totp
  ∧ (save db now activeDefault (.inl u)).1.nextId = db.nextId
  ∧ (save db now activeDefault (.inl u)).1.users
      = db.users.map (fun r =>
          if r.id = u.id then
            { r with identity := u.identity, nickname := u.nickname }
          else r)
  ∧ (save db now activeDefault (.inl u)).1.users.map
        (fun r => (r.created, r.type, r.active))
      = db.users.map (fun r => (r.created, r.type, r.active))
  ∧ (∀ r ∈ db.users, r.id ≠ u.id →
        r ∈ (save db now activeDefault (.inl u)).1.users) := by
  refine ⟨rfl, rfl, rfl, rfl, rfl, ?_, ?_⟩
  · show (db.users.map _).map _ = _
    rw [List.map_map]
    apply List.map_congr_left
    intro r _
    by_cases h : r.id = u.id <;> simp [h]
  · intro r hr hne
    show r ∈ db.users.map _
    have : (if r.id = u.id then
        { r with identity := u.identity, nickname := u.nickname }
      else r) = r := by simp [hne]
    exact this ▸ List.mem_map_of_mem _ hr

/-- C5 witness: updating Alice's identity and nickname on the sample store
returns the input, keeps Bob's row intact, and keeps every row's `created`,
`type` and `active`. -/
theorem save_update_frame_witness :
    (save dbW 1234 true
        (.inl { id := 1, identity := "alice@new.com", nickname := "Alicia",
                created := some 1700000000000, type := 1 })).2
      = { id := 1, identity := "alice@new.com", nickname := "Alicia",
          created := some 1700000000000, type := 1 }
  ∧ rowBob ∈ (save dbW 1234 true
        (.inl { id := 1, identity := "alice@new.com", nickname := "Alicia",
                created := some 1700000000000, type := 1 })).1.users
  ∧ (save dbW 1234 true
        (.inl { id := 1, identity := "alice@new.com", nickname := "Alicia",
                created := some 1700000000000, type := 1 })).1.users.map
      (fun r => (r.created, r.type, r.active))
      = dbW.users.map (fun r => (r.created, r.type, r.active)) := by
  have h := save_update_frame dbW 1234 true
    { id := 1, identity := "alice@new.com", nickname := "Alicia",
      created := some 1700000000000, type := 1 }
  exact ⟨h.1, h.2.2.2.2.2.2 rowBob (by decide) (by decide), h.2.2.2.2.2.1⟩

/-- C6: `createPassword` stores exactly `bcrypt.hash(p, 12)` — the fixed
work factor 12 — appended as a new row for `user.id`; afterwards
`validatePassword` accepts `p` (given bcrypt matches `p` against its own
hash) and rejects any plaintext matching no stored hash. -/
theorem createPassword_validate (bcompare : String → String → Bool)
    (bhash : String → Nat → String) (db : Db) (u : User) (p wrong : String)
    (hp : bcompare p (bhash p 12) = true)
    (hw : ∀ h ∈ storedHashes (createPassword bhash db u p) u.id,
            bcompare wrong h = false) :
    (createPassword bhash db u p).user_passwords
        = db.user_passwords ++ [{ userId := u.id, password := bhash p 12 }]
  ∧ validatePassword bcompare (createPassword bhash db u p) u p = true
  ∧ validatePassword bcompare (createPassword bhash db u p) u wrong
      = false := by
  refine ⟨rfl, ?_, ?_⟩
  · simp [validatePassword, storedHashes, createPassword, List.filter_append,
      List.any_append, hp]
  · cases hval : validatePassword bcompare (createPassword bhash db u p) u wrong with
    | false => rfl
    | true =>
      exfalso
      simp only [validatePassword, List.any_eq_true] at hval
      obtain ⟨x, hx, hpx⟩ := hval
      exact absurd hpx (by simp [hw x hx])

/-- C6 witness: on the empty store, after adding "Secr3tPass!", that
plaintext verifies and "WrongPass" does not. -/
theorem createPassword_validate_witness :
    validatePassword bcompareW
      (createPassword bhashW dbEmpty userAlice "Secr3tPass!") userAlice
      "Secr3tPass!" = true
  ∧ validatePassword bcompareW
      (createPassword bhashW dbEmpty userAlice "Secr3tPass!") userAlice
      "WrongPass" = false := by
  have h := createPassword_validate bcompareW bhashW dbEmpty userAlice
    "Secr3tPass!" "WrongPass" (by decide) (by decide)
  exact ⟨h.2.1, h.2.2⟩

/-- C7: when no TotpSecret row exists for `user.id`, `validateTotp` returns
`false` (the factor is "not enabled", not an error); and in every case its
result is a plain boolean with no failure path — `false`, or the total
checker's verdict on the first row's secret, so an unparsable token is just
a non-matching argument rather than an exception. -/
theorem validateTotp_not_enabled (check : String → String → Bool) (db : Db)
    (u : User) (token : String) :
    (totpRows db u.id = [] → validateTotp check db u token = false)
  ∧ (validateTotp check db u token = false
      ∨ ∃ r rest, totpRows db u.id = r :: rest
          ∧ validateTotp check db u token = check token r.secret) := by
  constructor
  · intro h; simp [validateTotp, h]
  · cases h : totpRows db u.id with
    | nil => exact Or.inl (by simp [validateTotp, h])
    | cons r rest => exact Or.inr ⟨r, rest, rfl, by simp [validateTotp, h]⟩

/-- C7 witness: the sample store has no TOTP rows, so any token is
rejected for Alice. -/
theorem validateTotp_not_enabled_witness :
    validateTotp checkW dbW userAlice "123456" = false :=
  (validateTotp_not_enabled checkW dbW userAlice "123456").1 (by decide)

/-- C8: both verification operations depend on the user value only through
`user.id`: two users agreeing on `id` but differing arbitrarily elsewhere
get identical results for the same candidate and store state. -/
theorem verify_depends_only_on_id (bcompare check : String → String → Bool)
    (db : Db) (u1 u2 : User) (p token : String) (hid : u1.id = u2.id) :
    validatePassword bcompare db u1 p = validatePassword bcompare db u2 p
  ∧ validateTotp check db u1 token = validateTotp check db u2 token := by
  constructor
  · simp [validatePassword, storedHashes, hid]
  · simp [validateTotp, totpRows, hid]

/-- C8 witness: Alice and a user with her id but different identity,
nickname, created and type verify identically on the sample store. -/
theorem verify_depends_only_on_id_witness :
    validatePassword bcompareW dbP userAlice "Secr3tPass!"
      = validatePassword bcompareW dbP
          { id := 1, identity := "eve@example.com", nickname := "Eve",
            created := none, type := 9 } "Secr3tPass!"
  ∧ validateTotp checkW dbP userAlice "123456"
      = validateTotp checkW dbP
          { id := 1, identity := "eve@example.com", nickname := "Eve",
            created := none, type := 9 } "123456" :=
  verify_depends_only_on_id bcompareW checkW dbP userAlice
    { id := 1, identity := "eve@example.com", nickname := "Eve",
      created := none, type := 9 } "Secr3tPass!" "123456" rfl

/-- C9: whenever the store holds at least one TotpSecret row for the
user's id, `validateTotp` is the checker's verdict on the first row's
secret in store order alone; the rows after it never affect the result. -/
theorem validateTotp_first_row (check : String → String → Bool) (db : Db)
    (u : User) (token : String) (r : TotpRow) (rest : List TotpRow)
    (h : totpRows db u.id = r :: rest) :
    validateTotp check db u token = check token r.secret := by
  simp [validateTotp, h]

/-- A sample store with two TOTP rows for Alice's id. -/
def dbT : Db :=
  { users := [rowAlice],
    user_passwords := [],
    user_totp := [{ userId := 1, secret := "S1" }, { userId := 1, secret := "S2" }],
    nextId := 3 }

/-- C9 witness: with secrets "S1" then "S2" stored for Alice, a token equal
to the second secret is still checked only against "S1" (and rejected by
the equality checker). -/
theorem validateTotp_first_row_witness :
    validateTotp checkW dbT userAlice "S2" = checkW "S2" "S1"
  ∧ validateTotp checkW dbT userAlice "S2" = false := by
  have h := validateTotp_first_row checkW dbT userAlice "S2"
    { userId := 1, secret := "S1" } [{ userId := 1, secret := "S2" }]
    (by decide)
  exact ⟨h, h.trans (by decide)⟩

/-- C10: every `User` produced by `findAll`, `findById` or `findByIdentity`
is `recordToModel` of the selected columns of an active stored row, with
`created` equal to the stored unix seconds times 1000; the selected columns
are exactly id, identity, nickname, created and type — not `active` — and
the produced value is independent of the row's `active` flag. -/
theorem read_model_shape (db : Db) (id : Nat) (idt : String) :
    (∀ u ∈ findAll db, ∃ r, r ∈ db.users ∧ r.active = true
        ∧ u = recordToModel (selectFields r)
        ∧ u.created = some (r.created * 1000))
  ∧ (∀ u, findById db id = .ok u → ∃ r, r ∈ db.users ∧ r.active = true
        ∧ u = recordToModel (selectFields r)
        ∧ u.created = some (r.created * 1000))
  ∧ (∀ u, findByIdentity db idt = .ok u → ∃ r, r ∈ db.users ∧ r.active = true
        ∧ u = recordToModel (selectFields r)
        ∧ u.created = some (r.created * 1000))
  ∧ fieldNames = ["id", "identity", "nickname", "created", "type"]
  ∧ "active" ∉ fieldNames
  ∧ (∀ (r : UserRow) (b : Bool),
        recordToModel (selectFields { r with active := b })
          = recordToModel (selectFields r)) := by
  refine ⟨?_, ?_, ?_, rfl, by decide, fun r b => rfl⟩
  · intro u hu
    simp only [findAll, activeRows, List.mem_map, List.mem_filter] at hu
    obtain ⟨r, ⟨hr, hact⟩, hu⟩ := hu
    exact ⟨r, hr, hact, hu.symm, hu ▸ rfl⟩
  · intro u h
    cases hm : activeById db id with
    | nil => simp [findById, hm] at h
    | cons r rest =>
      cases rest with
      | nil =>
        simp only [findById, hm] at h
        have h2 : recordToModel (selectFields r) = u := by simpa using h
        subst h2
        have hr : r ∈ db.users.filter (fun r => r.active && r.id == id) := by
          rw [show db.users.filter (fun r => r.active && r.id == id)
              = activeById db id from rfl, hm]
          exact List.mem_singleton.mpr rfl
        rw [List.mem_filter] at hr
        exact ⟨r, hr.1, (Bool.and_eq_true ..).mp hr.2 |>.1, rfl, rfl⟩
      | cons r2 rest2 => simp [findById, hm] at h
  · intro u h
    cases hm : activeByIdentity db idt with
    | nil => simp [findByIdentity, hm] at h
    | cons r rest =>
      cases rest with
      | nil =>
        simp only [findByIdentity, hm] at h
        have h2 : recordToModel (selectFields r) = u := by simpa using h
        subst h2
        have hr : r ∈ db.users.filter (fun r => r.active && r.identity == idt) := by
          rw [show db.users.filter (fun r => r.active && r.identity == idt)
              = activeByIdentity db idt from rfl, hm]
          exact List.mem_singleton.mpr rfl
        rw [List.mem_filter] at hr
        exact ⟨r, hr.1, (Bool.and_eq_true ..).mp hr.2 |>.1, rfl, rfl⟩
      | cons r2 rest2 => simp [findByIdentity, hm] at h

/-- C10 witness: resolving id 1 on the sample store yields Alice's model,
which indeed comes from her active row with `created` scaled to
milliseconds. -/
theorem read_model_shape_witness :
    ∃ r, r ∈ dbW.users ∧ r.active = true
      ∧ userAlice = recordToModel (selectFields r)
      ∧ userAlice.created = some (r.created * 1000) :=
  (read_model_shape dbW 1 "x").2.1 userAlice rfl

end A12n
